import Mathlib

/-!
Shallow embedding of the extension-property resolution core of `src/utils.c`
(PostgreSQL extension whitelisting utilities):

* `parse_default_version_in_control_file` — reads the extension's control
  file and fills in the still-unset `default_version` / `schema` values
  (first occurrence in file order wins, existing values are kept);
* `get_extension_current_version` — looks up the installed version of an
  extension in the `pg_extension` catalog;
* `fill_in_extension_properties` — reads the statement option list, applies
  control-file defaults and finally the first `search_path` entry for the
  schema.

File-system, catalog and namespace lookups are modelled by an explicit
environment record `Env`; PostgreSQL `ereport(ERROR, ...)` exits are
modelled by the `Except ResolveError` monad.
-/

namespace Pgrds

/-- Error exits of the C code (`ereport`/`elog` at ERROR level):
`notFound` for a missing control file (`could not open extension control
file`), `malformed` for a `ParseConfigFp` failure, `noSchemaSelected` for
`no schema has been selected to create in`, `notInstalled` for
`extension does not exist`, and `internalNull` for the defensive
`elog(ERROR, "extversion is null")`. -/
inductive ResolveError where
  | notFound
  | malformed
  | noSchemaSelected
  | notInstalled
  | internalNull
  deriving DecidableEq, Repr

/-- A row of the `pg_extension` catalog, restricted to the attribute read by
the code: `extversion`, a nullable text column. -/
structure CatalogRow where
  extversion : Option String
  deriving DecidableEq, Repr

/-- State of an extension's control file on disk: absent (`AllocateFile`
returns NULL), unparsable (`ParseConfigFp` raises), or parsed into the
ordered `ConfigVariable` list of `(name, value)` pairs. -/
inductive ControlFileState where
  | missing
  | malformed
  | parsed (items : List (String × String))
  deriving DecidableEq, Repr

/-- The external world as seen by `utils.c`: the control file of each
extension name, the result of `fetch_search_path(false)` (a list of
namespace OIDs), `get_namespace_name` (NULL for a dropped namespace), and
the `pg_extension` catalog keyed by extension name. -/
structure Env where
  controlFile : String → ControlFileState
  searchPath : List Nat
  namespaceName : Nat → Option String
  catalog : String → Option CatalogRow

/-- A statement option (`DefElem`): a name and an optional argument value
(`strVal(defel->arg)` when the argument is present). -/
structure DefElem where
  defname : String
  arg : Option String
  deriving DecidableEq, Repr

/-- The loop of `parse_default_version_in_control_file` over the parsed
`ConfigVariable` list: the first `default_version` entry fills a still-NULL
`*version`, the first `schema` entry fills a still-NULL `*schema`; all
other entries and later duplicates are ignored. -/
def scanControlItems : List (String × String) → Option String → Option String →
    Option String × Option String
  | [], version, schema => (version, schema)
  | item :: rest, version, schema =>
    if version = none ∧ item.1 = "default_version" then
      scanControlItems rest (some item.2) schema
    else if schema = none ∧ item.1 = "schema" then
      scanControlItems rest version (some item.2)
    else
      scanControlItems rest version schema

/-- `parse_default_version_in_control_file` from `src/utils.c` (lines
63-118): open `<sharepath>/extension/<extname>.control` (error if it cannot
be opened), parse it with the GUC config-file parser (error if malformed),
then scan the entries filling the still-unset `version` / `schema`. -/
def parse_default_version_in_control_file (env : Env) (extname : String)
    (version schema : Option String) :
    Except ResolveError (Option String × Option String) :=
  match env.controlFile extname with
  | ControlFileState.missing => Except.error ResolveError.notFound
  | ControlFileState.malformed => Except.error ResolveError.malformed
  | ControlFileState.parsed items => Except.ok (scanControlItems items version schema)

/-- `get_extension_current_version` from `src/utils.c` (lines 124-169):
scan `pg_extension` for the named extension; error `extension does not
exist` when no tuple is found; defensively error when `extversion` is NULL;
otherwise return the stored version text. -/
def get_extension_current_version (env : Env) (extname : String) :
    Except ResolveError String :=
  match env.catalog extname with
  | none => Except.error ResolveError.notInstalled
  | some row =>
    match row.extversion with
    | none => Except.error ResolveError.internalNull
    | some v => Except.ok v

/-- The three `DefElem` pointers collected by the option-list loop of
`fill_in_extension_properties`. -/
structure ScannedOptions where
  d_schema : Option DefElem
  d_new_version : Option DefElem
  d_old_version : Option DefElem
  deriving DecidableEq, Repr

/-- The `foreach(lc, options)` loop of `fill_in_extension_properties`
(lines 190-210): each matching option overwrites the pointer, so the last
occurrence of a recognized name wins; unrecognized names are ignored. -/
def scanOptionsAux : ScannedOptions → List DefElem → ScannedOptions
  | acc, [] => acc
  | acc, defel :: rest =>
    if defel.defname = "schema" then
      scanOptionsAux { acc with d_schema := some defel } rest
    else if defel.defname = "new_version" then
      scanOptionsAux { acc with d_new_version := some defel } rest
    else if defel.defname = "old_version" then
      scanOptionsAux { acc with d_old_version := some defel } rest
    else
      scanOptionsAux acc rest

/-- Scan an option list starting from the three NULL `DefElem` locals. -/
def scanOptions (options : List DefElem) : ScannedOptions :=
  scanOptionsAux ⟨none, none, none⟩ options

/-- `if (d && d->arg) *out = strVal(d->arg);` — overwrite the output with
the option's argument when the option was found and carries a value. -/
def applyArg (d : Option DefElem) (cur : Option String) : Option String :=
  match d with
  | some defel =>
    match defel.arg with
    | some v => some v
    | none => cur
  | none => cur

/-- Lines 226-247 of `fill_in_extension_properties`: when `*schema` is
still NULL, take the first entry of `fetch_search_path(false)` (error
`noSchemaSelected` when the path is empty), resolve it with
`get_namespace_name` (error `noSchemaSelected` when that returns NULL). -/
def defaultSchema (env : Env) (schema old_version new_version : Option String) :
    Except ResolveError (Option String × Option String × Option String) :=
  match schema with
  | some s => Except.ok (some s, old_version, new_version)
  | none =>
    match env.searchPath with
    | [] => Except.error ResolveError.noSchemaSelected
    | oid :: _ =>
      match env.namespaceName oid with
      | none => Except.error ResolveError.noSchemaSelected
      | some nm => Except.ok (some nm, old_version, new_version)

/-- Lines 221-247 of `fill_in_extension_properties`: consult the control
file when `*new_version` or `*schema` is still NULL, then apply the
search-path default for a still-NULL `*schema`. -/
def applyDefaults (env : Env) (extname : String)
    (schema old_version new_version : Option String) :
    Except ResolveError (Option String × Option String × Option String) :=
  if new_version = none ∨ schema = none then
    match parse_default_version_in_control_file env extname new_version schema with
    | Except.error e => Except.error e
    | Except.ok pr => defaultSchema env pr.2 old_version pr.1
  else
    defaultSchema env schema old_version new_version

/-- `fill_in_extension_properties` from `src/utils.c` (lines 174-248).
The C function communicates through in/out pointers `*schema`,
`*old_version`, `*new_version`; here their initial contents are the last
three arguments and their final contents are the returned triple
`(schema, old_version, new_version)`. -/
def fill_in_extension_properties (env : Env) (extname : String)
    (options : List DefElem) (schema old_version new_version : Option String) :
    Except ResolveError (Option String × Option String × Option String) :=
  let d := scanOptions options
  applyDefaults env extname (applyArg d.d_schema schema)
    (applyArg d.d_old_version old_version) (applyArg d.d_new_version new_version)

/-- A small concrete world: a control file with both keys, search path
`[public, app]`, and one installed extension `pgq` at version `3.4`. -/
def envStd : Env where
  controlFile := fun _ => ControlFileState.parsed
    [("default_version", "1.0"), ("schema", "ctrl")]
  searchPath := [1, 2]
  namespaceName := fun oid =>
    if oid = 1 then some "public" else if oid = 2 then some "app" else none
  catalog := fun n => if n = "pgq" then some ⟨some "3.4"⟩ else none

/-- A world whose control files are all missing. -/
def envMissing : Env where
  controlFile := fun _ => ControlFileState.missing
  searchPath := [1]
  namespaceName := fun _ => some "public"
  catalog := fun _ => none

/-- A world whose control file has a `default_version` but no `schema`. -/
def envNoCtrlSchema : Env where
  controlFile := fun _ => ControlFileState.parsed [("default_version", "1.0")]
  searchPath := [1, 2]
  namespaceName := fun oid =>
    if oid = 1 then some "public" else if oid = 2 then some "app" else none
  catalog := fun _ => none

/-- Like `envNoCtrlSchema` but with an empty search path. -/
def envEmptySearchPath : Env where
  controlFile := fun _ => ControlFileState.parsed [("default_version", "1.0")]
  searchPath := []
  namespaceName := fun _ => none
  catalog := fun _ => none

/-- Like `envNoCtrlSchema` but the only search-path namespace has been
dropped: `get_namespace_name` returns NULL for every OID. -/
def envDroppedNamespace : Env where
  controlFile := fun _ => ControlFileState.parsed [("default_version", "1.0")]
  searchPath := [7]
  namespaceName := fun _ => none
  catalog := fun _ => none

/-- A world whose control file parses to an empty entry list (neither
`default_version` nor `schema` declared). -/
def envBareControl : Env where
  controlFile := fun _ => ControlFileState.parsed []
  searchPath := [1, 2]
  namespaceName := fun oid =>
    if oid = 1 then some "public" else if oid = 2 then some "app" else none
  catalog := fun _ => none

/-- A world whose control file declares every recognized key twice. -/
def envDup : Env where
  controlFile := fun _ => ControlFileState.parsed
    [("default_version", "1.0"), ("comment", "x"), ("default_version", "2.0"),
     ("schema", "s1"), ("schema", "s2")]
  searchPath := [1]
  namespaceName := fun _ => some "public"
  catalog := fun _ => none

/-- The last `DefElem` of a list whose `defname` equals `key`, starting
from a given accumulator: exactly what one slot of the option-scan loop
computes. -/
def lastWithName (key : String) : List DefElem → Option DefElem → Option DefElem
  | [], acc => acc
  | defel :: rest, acc =>
    lastWithName key rest (if defel.defname = key then some defel else acc)

/-- An option that matches none of the three recognized names. -/
def recognizedKey (d : DefElem) : Bool :=
  d.defname == "schema" || d.defname == "new_version" || d.defname == "old_version"

theorem scanOptionsAux_eq (options : List DefElem) :
    ∀ a b c : Option DefElem, scanOptionsAux ⟨a, b, c⟩ options =
      ⟨lastWithName "schema" options a, lastWithName "new_version" options b,
       lastWithName "old_version" options c⟩ := by
  induction options with
  | nil => intro a b c; rfl
  | cons d rest ih =>
    intro a b c
    by_cases h1 : d.defname = "schema"
    · simp [scanOptionsAux, lastWithName, h1, ih]
    · by_cases h2 : d.defname = "new_version"
      · simp [scanOptionsAux, lastWithName, h1, h2, ih]
      · by_cases h3 : d.defname = "old_version"
        · simp [scanOptionsAux, lastWithName, h1, h2, h3, ih]
        · simp [scanOptionsAux, lastWithName, h1, h2, h3, ih]

theorem scanOptions_eq (options : List DefElem) :
    scanOptions options =
      ⟨lastWithName "schema" options none, lastWithName "new_version" options none,
       lastWithName "old_version" options none⟩ :=
  scanOptionsAux_eq options none none none

theorem lastWithName_filter_keep (key : String) (p : DefElem → Bool)
    (hp : ∀ d : DefElem, d.defname = key → p d = true) (options : List DefElem) :
    ∀ acc, lastWithName key (options.filter p) acc = lastWithName key options acc := by
  induction options with
  | nil => intro acc; rfl
  | cons d rest ih =>
    intro acc
    by_cases hd : p d = true
    · simp [List.filter, hd, lastWithName, ih]
    · have hk : d.defname ≠ key := fun h => hd (hp d h)
      simp [List.filter, hd, lastWithName, hk, ih]

theorem lastWithName_filter_drop (key : String) (p : DefElem → Bool)
    (hp : ∀ d : DefElem, p d = true → d.defname ≠ key) (options : List DefElem) :
    ∀ acc, lastWithName key (options.filter p) acc = acc := by
  induction options with
  | nil => intro acc; rfl
  | cons d rest ih =>
    intro acc
    by_cases hd : p d = true
    · simp [List.filter, hd, lastWithName, hp d hd, ih]
    · simp [List.filter, hd, ih]

theorem lastWithName_absent (key : String) (options : List DefElem)
    (h : ∀ d ∈ options, d.defname ≠ key) :
    ∀ acc, lastWithName key options acc = acc := by
  induction options with
  | nil => intro acc; rfl
  | cons d rest ih =>
    intro acc
    have hd : d.defname ≠ key := h d (List.mem_cons_self d rest)
    simp [lastWithName, hd]
    exact ih (fun x hx => h x (List.mem_cons_of_mem d hx)) acc

theorem scanControlItems_eq (items : List (String × String)) :
    ∀ v s : Option String, scanControlItems items v s =
      (v.or ((items.find? fun it => it.1 == "default_version").map Prod.snd),
       s.or ((items.find? fun it => it.1 == "schema").map Prod.snd)) := by
  induction items with
  | nil => intro v s; simp [scanControlItems]
  | cons it rest ih =>
    intro v s
    by_cases hdv : it.1 = "default_version"
    · cases v with
      | none => simp [scanControlItems, hdv, List.find?, ih, Option.or, beq_iff_eq]
      | some vv => simp [scanControlItems, hdv, List.find?, ih, Option.or, beq_iff_eq]
    · by_cases hsc : it.1 = "schema"
      · cases s with
        | none => simp [scanControlItems, hdv, hsc, List.find?, ih, Option.or, beq_iff_eq]
        | some ss => simp [scanControlItems, hdv, hsc, List.find?, ih, Option.or, beq_iff_eq]
      · have hdv2 : (it.1 == "default_version") = false := beq_eq_false_iff_ne.mpr hdv
        have hsc2 : (it.1 == "schema") = false := beq_eq_false_iff_ne.mpr hsc
        simp [scanControlItems, hdv, hsc, List.find?, ih, Option.or, hdv2, hsc2]

theorem scanControlItems_keeps_version (items : List (String × String))
    (v : String) (s : Option String) :
    (scanControlItems items (some v) s).1 = some v := by
  simp [scanControlItems_eq, Option.or]

theorem scanControlItems_keeps_schema (items : List (String × String))
    (v : Option String) (s : String) :
    (scanControlItems items v (some s)).2 = some s := by
  simp [scanControlItems_eq, Option.or]

theorem defaultSchema_ok_schema_isSome (env : Env)
    (schema old_version new_version : Option String)
    (r : Option String × Option String × Option String)
    (h : defaultSchema env schema old_version new_version = Except.ok r) :
    ∃ nm, r.1 = some nm := by
  unfold defaultSchema at h
  split at h
  · cases h; exact ⟨_, rfl⟩
  · split at h
    · cases h
    · split at h
      · cases h
      · cases h; exact ⟨_, rfl⟩

theorem applyDefaults_ok_schema_isSome (env : Env) (extname : String)
    (schema old_version new_version : Option String)
    (r : Option String × Option String × Option String)
    (h : applyDefaults env extname schema old_version new_version = Except.ok r) :
    ∃ nm, r.1 = some nm := by
  unfold applyDefaults at h
  split at h
  · split at h
    · cases h
    · exact defaultSchema_ok_schema_isSome env _ _ _ r h
  · exact defaultSchema_ok_schema_isSome env _ _ _ r h

/-- C1 (amended): on every successful call to `fill_in_extension_properties`
the schema output is populated with some string; `new_version`, however, may
remain unset (see the counterexample), so only the schema part of the
original claim survives. -/
theorem fill_ok_schema_isSome (env : Env) (extname : String)
    (options : List DefElem) (s o n : Option String)
    (r : Option String × Option String × Option String)
    (h : fill_in_extension_properties env extname options s o n = Except.ok r) :
    ∃ nm, r.1 = some nm := by
  unfold fill_in_extension_properties at h
  exact applyDefaults_ok_schema_isSome env extname _ _ _ r h

/-- C1 (witness): instantiating the amended claim at `envStd` with an empty
option list, whose resolution succeeds as `(some "ctrl", none, some "1.0")`. -/
theorem fill_ok_schema_isSome_witness :
    ∃ nm, (Prod.fst (some "ctrl", (none : Option String), some "1.0")) = some nm :=
  fill_ok_schema_isSome envStd "e" [] none none none
    (some "ctrl", none, some "1.0") rfl

/-- C1 (counterexample): with a parsed control file declaring neither key and
an option list supplying `schema` as the empty string, resolution succeeds
with `schema = some ""` (empty) and `new_version = none` (unpopulated), so a
successful result need not carry a non-empty `new_version` string and the
caller does need further fallback for it. -/
theorem fill_ok_without_new_version :
    ¬ (∀ r : Option String × Option String × Option String,
        fill_in_extension_properties envBareControl "pg"
          [⟨"schema", some ""⟩] none none none = Except.ok r →
        (∃ s2, r.1 = some s2 ∧ s2 ≠ "") ∧ (∃ v, r.2.2 = some v ∧ v ≠ "")) := by
  intro h
  rcases (h (some "", none, none) rfl).2 with ⟨v, hv, _⟩
  exact Option.noConfusion hv

/-- C2 (amended): when the control file of `extname` is missing, resolution
fails with `notFound` exactly when the option list (on top of the initial
pointer contents) leaves `new_version` or `schema` unset — that is the only
case in which the control file is consulted; when options supply both,
resolution succeeds without touching the control file and returns the
option-supplied values. -/
theorem fill_missing_control (env : Env) (extname : String)
    (options : List DefElem) (s o n : Option String)
    (hmiss : env.controlFile extname = ControlFileState.missing) :
    (applyArg (scanOptions options).d_new_version n = none ∨
       applyArg (scanOptions options).d_schema s = none →
      fill_in_extension_properties env extname options s o n =
        Except.error ResolveError.notFound) ∧
    (applyArg (scanOptions options).d_new_version n ≠ none →
      applyArg (scanOptions options).d_schema s ≠ none →
      fill_in_extension_properties env extname options s o n =
        Except.ok (applyArg (scanOptions options).d_schema s,
          applyArg (scanOptions options).d_old_version o,
          applyArg (scanOptions options).d_new_version n)) := by
  constructor
  · intro hcond
    simp only [fill_in_extension_properties, applyDefaults,
      parse_default_version_in_control_file, hmiss, if_pos hcond]
  · intro hnv hsc
    simp only [fill_in_extension_properties, applyDefaults]
    rw [if_neg (by rintro (h | h); exacts [hnv h, hsc h])]
    obtain ⟨s2, hs2⟩ := Option.ne_none_iff_exists.mp hsc
    rw [← hs2]
    rfl

/-- C2 (witness): at `envMissing` with an empty option list the defaulting
chain needs the control file, and resolution fails with `notFound`. -/
theorem fill_missing_control_witness :
    fill_in_extension_properties envMissing "m" [] none none none =
      Except.error ResolveError.notFound :=
  (fill_missing_control envMissing "m" [] none none none rfl).1 (Or.inl rfl)

/-- C2 (counterexample): the control file of `"m"` is missing in
`envMissing`, yet a resolution whose options supply both `schema` and
`new_version` succeeds instead of failing with `notFound`, because the
control file is never consulted. -/
theorem fill_missing_control_ok :
    envMissing.controlFile "m" = ControlFileState.missing ∧
    fill_in_extension_properties envMissing "m"
      [⟨"schema", some "s"⟩, ⟨"new_version", some "v"⟩] none none none =
      Except.ok (some "s", none, some "v") :=
  ⟨rfl, rfl⟩

theorem defaultSchema_ok_components (env : Env)
    (sc old_version new_version : Option String)
    (r : Option String × Option String × Option String)
    (h : defaultSchema env sc old_version new_version = Except.ok r) :
    r.2.1 = old_version ∧ r.2.2 = new_version := by
  unfold defaultSchema at h
  split at h
  · cases h; exact ⟨rfl, rfl⟩
  · split at h
    · cases h
    · split at h
      · cases h
      · cases h; exact ⟨rfl, rfl⟩

theorem applyDefaults_ok_schema_some (env : Env) (extname : String) (v : String)
    (o n : Option String) (r : Option String × Option String × Option String)
    (h : applyDefaults env extname (some v) o n = Except.ok r) :
    r.1 = some v := by
  unfold applyDefaults at h
  split at h
  · cases hp : parse_default_version_in_control_file env extname n (some v) with
    | error e => rw [hp] at h; cases h
    | ok pr =>
      have h3 : defaultSchema env pr.2 o pr.1 = Except.ok r := by
        rw [hp] at h; exact h
      have h2 : pr.2 = some v := by
        unfold parse_default_version_in_control_file at hp
        split at hp
        · cases hp
        · cases hp
        · cases hp; exact scanControlItems_keeps_schema _ _ _
      rw [h2] at h3
      simp only [defaultSchema] at h3
      cases h3; rfl
  · simp only [defaultSchema] at h
    cases h; rfl

theorem applyDefaults_ok_new_version_some (env : Env) (extname : String)
    (sc o : Option String) (v : String)
    (r : Option String × Option String × Option String)
    (h : applyDefaults env extname sc o (some v) = Except.ok r) :
    r.2.2 = some v := by
  unfold applyDefaults at h
  split at h
  · cases hp : parse_default_version_in_control_file env extname (some v) sc with
    | error e => rw [hp] at h; cases h
    | ok pr =>
      have h3 : defaultSchema env pr.2 o pr.1 = Except.ok r := by
        rw [hp] at h; exact h
      have h1 : pr.1 = some v := by
        unfold parse_default_version_in_control_file at hp
        split at hp
        · cases hp
        · cases hp
        · cases hp; exact scanControlItems_keeps_version _ _ _
      rw [(defaultSchema_ok_components env pr.2 o pr.1 r h3).2, h1]
  · exact (defaultSchema_ok_components env sc o (some v) r h).2

/-- C3: whenever the effective (last) `schema` and/or `new_version` option
carries a value, any successful resolution returns exactly that value for
the corresponding field, whatever the control file contains. -/
theorem fill_option_values_take_precedence (env : Env) (extname : String)
    (options : List DefElem) (s o n : Option String) :
    (∀ (d : DefElem) (v : String)
        (r : Option String × Option String × Option String),
      (scanOptions options).d_schema = some d → d.arg = some v →
      fill_in_extension_properties env extname options s o n = Except.ok r →
      r.1 = some v) ∧
    (∀ (d : DefElem) (v : String)
        (r : Option String × Option String × Option String),
      (scanOptions options).d_new_version = some d → d.arg = some v →
      fill_in_extension_properties env extname options s o n = Except.ok r →
      r.2.2 = some v) := by
  constructor
  · intro d v r hd harg h
    simp only [fill_in_extension_properties, hd, applyArg, harg] at h
    exact applyDefaults_ok_schema_some env extname v _ _ r h
  · intro d v r hd harg h
    simp only [fill_in_extension_properties, hd, applyArg, harg] at h
    exact applyDefaults_ok_new_version_some env extname _ _ v r h

/-- C3 (witness): at `envStd` (control file declaring `"1.0"` / `"ctrl"`),
options `schema = mine`, `new_version = 9.9` resolve to exactly those
values. -/
theorem fill_option_values_take_precedence_witness :
    (Prod.fst ((some "mine", none, some "9.9") :
        Option String × Option String × Option String)) = some "mine" ∧
    (((some "mine", none, some "9.9") :
        Option String × Option String × Option String)).2.2 = some "9.9" :=
  ⟨(fill_option_values_take_precedence envStd "e"
      [⟨"schema", some "mine"⟩, ⟨"new_version", some "9.9"⟩] none none none).1
      ⟨"schema", some "mine"⟩ "mine" (some "mine", none, some "9.9") rfl rfl rfl,
   (fill_option_values_take_precedence envStd "e"
      [⟨"schema", some "mine"⟩, ⟨"new_version", some "9.9"⟩] none none none).2
      ⟨"new_version", some "9.9"⟩ "9.9" (some "mine", none, some "9.9") rfl rfl rfl⟩

/-- C4: when the control file parses to the entry list `items`, the primary
parse (both outputs still NULL) returns for `default_version` and `schema`
the value of the FIRST entry of that name in file order (`List.find?`), so
later duplicates are ignored. -/
theorem parse_control_first_occurrence_wins (env : Env) (extname : String)
    (items : List (String × String))
    (h : env.controlFile extname = ControlFileState.parsed items) :
    parse_default_version_in_control_file env extname none none =
      Except.ok (((items.find? fun it => it.1 == "default_version").map Prod.snd),
        ((items.find? fun it => it.1 == "schema").map Prod.snd)) := by
  simp [parse_default_version_in_control_file, h, scanControlItems_eq, Option.or]

/-- C4 (witness): on a control file listing `default_version` twice
(`"1.0"` then `"2.0"`) and `schema` twice (`"s1"` then `"s2"`), the parse
returns the first occurrences `"1.0"` and `"s1"`. -/
theorem parse_control_first_occurrence_wins_witness :
    parse_default_version_in_control_file envDup "e" none none =
      Except.ok (some "1.0", some "s1") :=
  parse_control_first_occurrence_wins envDup "e" _ rfl

/-- C7: `get_extension_current_version` fails with `notInstalled` when the
extension has no `pg_extension` row, and returns exactly the stored
`extversion` string when a row with a non-NULL version exists. -/
theorem get_extension_current_version_spec (env : Env) (extname : String) :
    (env.catalog extname = none →
      get_extension_current_version env extname =
        Except.error ResolveError.notInstalled) ∧
    (∀ (row : CatalogRow) (v : String), env.catalog extname = some row →
      row.extversion = some v →
      get_extension_current_version env extname = Except.ok v) := by
  constructor
  · intro h
    simp [get_extension_current_version, h]
  · intro row v h1 h2
    simp [get_extension_current_version, h1, h2]

/-- C7 (witness): in `envStd` the extension `"nope"` is not installed and
`"pgq"` is installed at version `"3.4"`. -/
theorem get_extension_current_version_witness :
    get_extension_current_version envStd "nope" =
      Except.error ResolveError.notInstalled ∧
    get_extension_current_version envStd "pgq" = Except.ok "3.4" :=
  ⟨(get_extension_current_version_spec envStd "nope").1 rfl,
   (get_extension_current_version_spec envStd "pgq").2 ⟨some "3.4"⟩ "3.4" rfl rfl⟩

/-- C8: property resolution is deterministic — two calls of
`fill_in_extension_properties` on identical environment, extension name,
options and initial pointer contents produce identical results. -/
theorem fill_deterministic (env : Env) (extname : String)
    (options : List DefElem) (s o n : Option String)
    (r1 r2 : Except ResolveError (Option String × Option String × Option String))
    (h1 : fill_in_extension_properties env extname options s o n = r1)
    (h2 : fill_in_extension_properties env extname options s o n = r2) :
    r1 = r2 :=
  h1.symm.trans h2

/-- C8 (witness): the two results of resolving at `envStd` with empty
options coincide. -/
theorem fill_deterministic_witness :
    (Except.ok (some "ctrl", none, some "1.0") :
      Except ResolveError (Option String × Option String × Option String)) =
      Except.ok (some "ctrl", none, some "1.0") :=
  fill_deterministic envStd "e" [] none none none _ _ rfl rfl

/-- C9: options whose name is none of `schema`, `new_version`,
`old_version` neither raise an error nor affect any field of the result —
resolving with them is identical to resolving with them filtered out. -/
theorem fill_ignores_unrecognized_options (env : Env) (extname : String)
    (options : List DefElem) (s o n : Option String) :
    fill_in_extension_properties env extname (options.filter recognizedKey) s o n =
      fill_in_extension_properties env extname options s o n := by
  have hscan : scanOptions (options.filter recognizedKey) = scanOptions options := by
    rw [scanOptions_eq, scanOptions_eq,
      lastWithName_filter_keep "schema" recognizedKey
        (by intro d hd; simp [recognizedKey, hd]) options,
      lastWithName_filter_keep "new_version" recognizedKey
        (by intro d hd; simp [recognizedKey, hd]) options,
      lastWithName_filter_keep "old_version" recognizedKey
        (by intro d hd; simp [recognizedKey, hd]) options]
  simp only [fill_in_extension_properties, hscan]

theorem fill_schema_unset_eq (env : Env) (extname : String)
    (options : List DefElem) (o n : Option String)
    (items : List (String × String))
    (hopts : ∀ d ∈ options, d.defname ≠ "schema")
    (hctrl : env.controlFile extname = ControlFileState.parsed items)
    (hitems : ∀ it ∈ items, it.1 ≠ "schema") :
    fill_in_extension_properties env extname options none o n =
      defaultSchema env none (applyArg (scanOptions options).d_old_version o)
        (scanControlItems items
          (applyArg (scanOptions options).d_new_version n) none).1 := by
  have hds : (scanOptions options).d_schema = none := by
    rw [scanOptions_eq]
    exact lastWithName_absent "schema" options hopts none
  have hfind : (items.find? fun it => it.1 == "schema") = none := by
    rw [List.find?_eq_none]
    intro it hit
    simpa [beq_iff_eq] using hitems it hit
  have hsc2 : (scanControlItems items
      (applyArg (scanOptions options).d_new_version n) none).2 = none := by
    rw [scanControlItems_eq]
    simp [Option.or, hfind]
  have step1 : fill_in_extension_properties env extname options none o n =
      applyDefaults env extname none
        (applyArg (scanOptions options).d_old_version o)
        (applyArg (scanOptions options).d_new_version n) := by
    show applyDefaults env extname (applyArg (scanOptions options).d_schema none)
        (applyArg (scanOptions options).d_old_version o)
        (applyArg (scanOptions options).d_new_version n) = _
    rw [hds]
    rfl
  have step2 : applyDefaults env extname none
      (applyArg (scanOptions options).d_old_version o)
      (applyArg (scanOptions options).d_new_version n) =
      defaultSchema env
        (scanControlItems items
          (applyArg (scanOptions options).d_new_version n) none).2
        (applyArg (scanOptions options).d_old_version o)
        (scanControlItems items
          (applyArg (scanOptions options).d_new_version n) none).1 := by
    unfold applyDefaults
    rw [if_pos (Or.inr rfl)]
    unfold parse_default_version_in_control_file
    rw [hctrl]
  rw [step1, step2, hsc2]

/-- C5: when `schema` comes from neither the options nor the (parsed)
control file, resolution fails with `noSchemaSelected` exactly in two
cases — the search path is empty, or the first search-path entry no longer
names a namespace — and both exits give the same error constructor. -/
theorem fill_no_schema_selected_iff (env : Env) (extname : String)
    (options : List DefElem) (o n : Option String)
    (items : List (String × String))
    (hopts : ∀ d ∈ options, d.defname ≠ "schema")
    (hctrl : env.controlFile extname = ControlFileState.parsed items)
    (hitems : ∀ it ∈ items, it.1 ≠ "schema") :
    fill_in_extension_properties env extname options none o n =
        Except.error ResolveError.noSchemaSelected ↔
      env.searchPath = [] ∨
        ∃ oid rest, env.searchPath = oid :: rest ∧
          env.namespaceName oid = none := by
  rw [fill_schema_unset_eq env extname options o n items hopts hctrl hitems]
  cases hsp : env.searchPath with
  | nil => simp [defaultSchema, hsp]
  | cons oid rest =>
    cases hnm : env.namespaceName oid with
    | none =>
      simp only [defaultSchema, hsp, hnm]
      constructor
      · intro _
        exact Or.inr ⟨oid, rest, rfl, hnm⟩
      · intro _
        trivial
    | some nm =>
      simp only [defaultSchema, hsp, hnm]
      constructor
      · intro h
        cases h
      · rintro (h | ⟨oid2, rest2, heq, h2⟩)
        · cases h
        · obtain ⟨rfl, rfl⟩ : oid2 = oid ∧ rest2 = rest := by
            cases heq; exact ⟨rfl, rfl⟩
          rw [hnm] at h2
          cases h2

/-- C5 (witness): both exits realized concretely — empty search path in
`envEmptySearchPath`, dropped first namespace in `envDroppedNamespace` —
and in each the resolution error is `noSchemaSelected`. -/
theorem fill_no_schema_selected_iff_witness :
    (fill_in_extension_properties envEmptySearchPath "e" [] none none none =
        Except.error ResolveError.noSchemaSelected ↔
      envEmptySearchPath.searchPath = [] ∨
        ∃ oid rest, envEmptySearchPath.searchPath = oid :: rest ∧
          envEmptySearchPath.namespaceName oid = none) ∧
    (fill_in_extension_properties envDroppedNamespace "e" [] none none none =
        Except.error ResolveError.noSchemaSelected ↔
      envDroppedNamespace.searchPath = [] ∨
        ∃ oid rest, envDroppedNamespace.searchPath = oid :: rest ∧
          envDroppedNamespace.namespaceName oid = none) :=
  ⟨fill_no_schema_selected_iff envEmptySearchPath "e" [] none none
      [("default_version", "1.0")] (by simp) rfl (by decide),
   fill_no_schema_selected_iff envDroppedNamespace "e" [] none none
      [("default_version", "1.0")] (by simp) rfl (by decide)⟩

/-- C6: when `schema` comes from neither the options nor the (parsed)
control file and the first search-path entry still names a namespace, the
resolved schema is that first entry's name. -/
theorem fill_schema_from_search_path (env : Env) (extname : String)
    (options : List DefElem) (o n : Option String)
    (items : List (String × String)) (oid : Nat) (rest : List Nat) (nm : String)
    (hopts : ∀ d ∈ options, d.defname ≠ "schema")
    (hctrl : env.controlFile extname = ControlFileState.parsed items)
    (hitems : ∀ it ∈ items, it.1 ≠ "schema")
    (hsp : env.searchPath = oid :: rest)
    (hnm : env.namespaceName oid = some nm) :
    ∃ o2 n2, fill_in_extension_properties env extname options none o n =
      Except.ok (some nm, o2, n2) := by
  rw [fill_schema_unset_eq env extname options o n items hopts hctrl hitems]
  simp only [defaultSchema, hsp, hnm]
  exact ⟨_, _, rfl⟩

/-- C6 (witness): in `envNoCtrlSchema` the search path is `[public, app]`
(OIDs `[1, 2]`), and the resolved schema is `public`, the first entry. -/
theorem fill_schema_from_search_path_witness :
    ∃ o2 n2, fill_in_extension_properties envNoCtrlSchema "e" [] none none none =
      Except.ok (some "public", o2, n2) :=
  fill_schema_from_search_path envNoCtrlSchema "e" [] none none
    [("default_version", "1.0")] 1 [2] "public" (by simp) rfl (by decide) rfl rfl

/-- C10 (amended): a recognized option that carries no value never sets the
corresponding output; when it is the EFFECTIVE (last) occurrence of its key
in the option list, resolution behaves exactly as if every option of that
key were absent — the descriptor/search-path defaulting chain applies —
even if an earlier occurrence of the same key carried a value (which it
thereby shadows; see the counterexample for why "as if that single entry
were omitted" is not what the code does). -/
theorem fill_null_arg_key_omitted (env : Env) (extname : String)
    (options : List DefElem) (s o n : Option String) :
    (∀ d : DefElem, (scanOptions options).d_schema = some d → d.arg = none →
      fill_in_extension_properties env extname options s o n =
        fill_in_extension_properties env extname
          (options.filter fun x => ! (x.defname == "schema")) s o n) ∧
    (∀ d : DefElem, (scanOptions options).d_new_version = some d → d.arg = none →
      fill_in_extension_properties env extname options s o n =
        fill_in_extension_properties env extname
          (options.filter fun x => ! (x.defname == "new_version")) s o n) ∧
    (∀ d : DefElem, (scanOptions options).d_old_version = some d → d.arg = none →
      fill_in_extension_properties env extname options s o n =
        fill_in_extension_properties env extname
          (options.filter fun x => ! (x.defname == "old_version")) s o n) := by
  refine ⟨fun d hd harg => ?_, fun d hd harg => ?_, fun d hd harg => ?_⟩
  · have hlast : lastWithName "schema" options none = some d := by
      rw [scanOptions_eq] at hd; exact hd
    have hfull : scanOptions options =
        ⟨some d, lastWithName "new_version" options none,
         lastWithName "old_version" options none⟩ := by
      rw [scanOptions_eq, hlast]
    have hfilt : scanOptions (options.filter fun x => ! (x.defname == "schema")) =
        ⟨none, lastWithName "new_version" options none,
         lastWithName "old_version" options none⟩ := by
      rw [scanOptions_eq,
        lastWithName_filter_drop "schema" _
          (by intro x hx; simpa using hx) options,
        lastWithName_filter_keep "new_version" _
          (by intro x hx; simp [hx]) options,
        lastWithName_filter_keep "old_version" _
          (by intro x hx; simp [hx]) options]
    simp only [fill_in_extension_properties, hfull, hfilt]
    simp [applyArg, harg]
  · have hlast : lastWithName "new_version" options none = some d := by
      rw [scanOptions_eq] at hd; exact hd
    have hfull : scanOptions options =
        ⟨lastWithName "schema" options none, some d,
         lastWithName "old_version" options none⟩ := by
      rw [scanOptions_eq, hlast]
    have hfilt : scanOptions (options.filter fun x => ! (x.defname == "new_version")) =
        ⟨lastWithName "schema" options none, none,
         lastWithName "old_version" options none⟩ := by
      rw [scanOptions_eq,
        lastWithName_filter_drop "new_version" _
          (by intro x hx; simpa using hx) options,
        lastWithName_filter_keep "schema" _
          (by intro x hx; simp [hx]) options,
        lastWithName_filter_keep "old_version" _
          (by intro x hx; simp [hx]) options]
    simp only [fill_in_extension_properties, hfull, hfilt]
    simp [applyArg, harg]
  · have hlast : lastWithName "old_version" options none = some d := by
      rw [scanOptions_eq] at hd; exact hd
    have hfull : scanOptions options =
        ⟨lastWithName "schema" options none,
         lastWithName "new_version" options none, some d⟩ := by
      rw [scanOptions_eq, hlast]
    have hfilt : scanOptions (options.filter fun x => ! (x.defname == "old_version")) =
        ⟨lastWithName "schema" options none,
         lastWithName "new_version" options none, none⟩ := by
      rw [scanOptions_eq,
        lastWithName_filter_drop "old_version" _
          (by intro x hx; simpa using hx) options,
        lastWithName_filter_keep "schema" _
          (by intro x hx; simp [hx]) options,
        lastWithName_filter_keep "new_version" _
          (by intro x hx; simp [hx]) options]
    simp only [fill_in_extension_properties, hfull, hfilt]
    simp [applyArg, harg]

/-- C10 (witness): a lone valueless `schema` option resolves exactly as an
empty option list does. -/
theorem fill_null_arg_key_omitted_witness :
    fill_in_extension_properties envStd "e" [⟨"schema", none⟩] none none none =
      fill_in_extension_properties envStd "e" [] none none none :=
  (fill_null_arg_key_omitted envStd "e" [⟨"schema", none⟩] none none none).1
    ⟨"schema", none⟩ rfl rfl

/-- C10 (counterexample): a valueless `schema` entry is NOT treated exactly
as if that entry were omitted: after `schema = a` a second, valueless
`schema` entry makes the code fall back to the control file default
(`ctrl`), whereas omitting the valueless entry resolves `schema` to `a`. -/
theorem fill_null_arg_not_like_entry_omitted :
    fill_in_extension_properties envStd "e"
      [⟨"schema", some "a"⟩, ⟨"schema", none⟩] none none none =
      Except.ok (some "ctrl", none, some "1.0") ∧
    fill_in_extension_properties envStd "e"
      [⟨"schema", some "a"⟩] none none none =
      Except.ok (some "a", none, some "1.0") :=
  ⟨rfl, rfl⟩

end Pgrds
